import Mathlib

/-!
Verification of the zeus-core route-extraction engine (src/index.ts, src/output.ts).

Strings are modelled as `List Char` (JS strings are sequences of UTF-16 code
units; every input appearing in the claims is ASCII, where the two models agree
index-for-index).  The JS regular expressions of the source are embedded as
hand-written scanners that implement the exact backtracking behaviour of each
pattern; the module-level `lastIndex` state of the `g`-flagged regexes is made
explicit and threaded through the scan, since the source shares those regex
objects between the `match` and `extract` phases and across calls.
-/

set_option maxRecDepth 20000

namespace Zeus

/-- JS strings, modelled as lists of characters. -/
abbrev Str := List Char

/-- Shorthand turning a Lean string literal into the `Str` model. -/
def S (s : String) : Str := s.toList

/-- The backtick character (written via its code point). -/
def btChar : Char := Char.ofNat 96

/-- The single-quote character (written via its code point). -/
def sqChar : Char := Char.ofNat 39

/-- The opening-brace character. -/
def obChar : Char := Char.ofNat 123

/-- The closing-brace character. -/
def cbChar : Char := Char.ofNat 125

/-- JS `\s` restricted to ASCII: space, tab, newline, carriage return,
vertical tab, form feed.  All inputs in this development are ASCII. -/
def isWsChar (c : Char) : Bool :=
  c == ' ' || c == '\t' || c == '\n' || c == '\r' || c == Char.ofNat 11 || c == Char.ofNat 12

/-- JS `\w`: ASCII letters, digits and underscore. -/
def isWordChar (c : Char) : Bool :=
  c.isAlpha || c.isDigit || c == '_'

/-- The quote class `[`"']` used by the route regexes: backtick, double quote,
single quote. -/
def isQuoteChar (c : Char) : Bool :=
  c == btChar || c == '"' || c == sqChar

/-- Strip a literal case-insensitively from the front of a string (the
`i`-flagged regexes compare ASCII case-insensitively). -/
def dropLitCI : Str → Str → Option Str
  | [], s => some s
  | _ :: _, [] => none
  | l :: ls, c :: cs => if l.toLower == c.toLower then dropLitCI ls cs else none

/-- Strip a literal case-sensitively from the front of a string. -/
def dropLitCS : Str → Str → Option Str
  | [], s => some s
  | _ :: _, [] => none
  | l :: ls, c :: cs => if l == c then dropLitCS ls cs else none

/-- Ordered alternation of case-insensitive literals.  Returns the capture as
it appears in the subject together with the rest of the string.  The verb
alternations of the source patterns are pairwise non-ambiguous (no alternative
is a prefix of another up to case), so committing to the first hit is exactly
the JS backtracking behaviour. -/
def altDropCI : List Str → Str → Option (Str × Str)
  | [], _ => none
  | lit :: more, t =>
    match dropLitCI lit t with
    | some rest => some (t.take lit.length, rest)
    | none => altDropCI more t

/-- Ordered alternation of case-sensitive literals (same commitment argument as
`altDropCI`). -/
def altDropCS : List Str → Str → Option (Str × Str)
  | [], _ => none
  | lit :: more, t =>
    match dropLitCS lit t with
    | some rest => some (t.take lit.length, rest)
    | none => altDropCS more t

/-- Find the first suffix (by character offset) on which `step` succeeds.
This is the position search a JS regex engine performs for an unanchored
pattern. -/
def searchIdx (step : Str → Option α) : Str → Option (Nat × α)
  | [] => (step []).map (fun a => (0, a))
  | c :: rest =>
    match step (c :: rest) with
    | some a => some (0, a)
    | none => (searchIdx step rest).map (fun p => (p.1 + 1, p.2))

/-- Position search for patterns that inspect the preceding character (word
boundaries): `step` also receives the character just before the suffix. -/
def searchIdxPrev (step : Option Char → Str → Option α) : Option Char → Str → Option (Nat × α)
  | prev, [] => (step prev []).map (fun a => (0, a))
  | prev, c :: rest =>
    match step prev (c :: rest) with
    | some a => some (0, a)
    | none => (searchIdxPrev step (some c) rest).map (fun p => (p.1 + 1, p.2))

/-- JS `\b`: true when exactly one side of the position is a word character. -/
def atWordBoundary (prev : Option Char) (t : Str) : Bool :=
  let pw := match prev with | none => false | some c => isWordChar c
  let nw := match t with | [] => false | c :: _ => isWordChar c
  pw != nw

/-- JS `String.prototype.includes`. -/
def jsIncludes (s sub : Str) : Bool :=
  match s with
  | [] => sub.isEmpty
  | c :: rest => sub.isPrefixOf (c :: rest) || jsIncludes rest sub

/-- JS `String.prototype.trim` (ASCII whitespace). -/
def jsTrim (s : Str) : Str :=
  ((s.dropWhile isWsChar).reverse.dropWhile isWsChar).reverse

/-- JS `String.prototype.split` at the newline character; keeps empty pieces,
exactly like `split("\n")`. -/
def splitOnNl : Str → List Str
  | [] => [[]]
  | c :: rest =>
    if c == '\n' then [] :: splitOnNl rest
    else
      match splitOnNl rest with
      | l :: ls => (c :: l) :: ls
      | [] => [[c]]

/-- Index of the leftmost occurrence of a literal substring. -/
def findSub (needle : Str) : Str → Option Nat
  | [] => if needle.isPrefixOf [] then some 0 else none
  | c :: rest =>
    if needle.isPrefixOf (c :: rest) then some 0
    else (findSub needle rest).map (· + 1)

/-- Numeric value of a list of decimal digits (JS `Number` on the 3-digit
status captures). -/
def natOfDigits (ds : Str) : Nat :=
  ds.foldl (fun acc c => acc * 10 + (c.toNat - 48)) 0

/-- Decimal rendering of a natural number, as a `Str`. -/
def natLex (n : Nat) : Str := (toString n).toList

/-! ## JSON values

Model of the JS values produced by `JSON.parse` and consumed by
`JSON.stringify`.  Numbers are kept as their source lexeme: no claim of this
development inspects a parsed numeric value, and JS floating-point formatting
is outside the scope of the embedding (every number compared by a theorem
below goes through the same pipeline on both sides). -/

mutual

inductive Json where
  | null
  | bool (b : Bool)
  | num (lex : Str)
  | str (s : Str)
  | arr (elems : JsonList)
  | obj (fields : JsonFields)
  deriving DecidableEq, Repr

/-- A list of JSON values (spelled out so equality stays derivable). -/
inductive JsonList where
  | nil
  | cons (head : Json) (tail : JsonList)
  deriving DecidableEq, Repr

/-- An ordered list of JSON object members; member order models JS property
insertion order, which `JSON.stringify` preserves. -/
inductive JsonFields where
  | nil
  | cons (key : Str) (val : Json) (tail : JsonFields)
  deriving DecidableEq, Repr

end

/-- Build a `JsonList` from a Lean list. -/
def JsonList.ofList : List Json → JsonList
  | [] => .nil
  | j :: rest => .cons j (JsonList.ofList rest)

/-- Build `JsonFields` from a Lean list of pairs. -/
def JsonFields.ofList : List (Str × Json) → JsonFields
  | [] => .nil
  | (k, v) :: rest => .cons k v (JsonFields.ofList rest)

/-- Whether an object member list carries the given key. -/
def JsonFields.hasKey : JsonFields → Str → Bool
  | .nil, _ => false
  | .cons k _ tail, key => k == key || tail.hasKey key

/-- Whether a JSON value is an object with the given key present. -/
def Json.hasKey : Json → Str → Bool
  | .obj fs, key => fs.hasKey key
  | _, _ => false

/-- JSON (RFC 8259) whitespace, as accepted by `JSON.parse`: space, tab,
newline, carriage return. -/
def isJsonWs (c : Char) : Bool :=
  c == ' ' || c == '\t' || c == '\n' || c == '\r'

def isJsonDigit (c : Char) : Bool := '0' ≤ c && c ≤ '9'

def isHexDigit (c : Char) : Bool :=
  isJsonDigit c || ('a' ≤ c && c ≤ 'f') || ('A' ≤ c && c ≤ 'F')

def hexVal (c : Char) : Nat :=
  if isJsonDigit c then c.toNat - 48
  else if 'a' ≤ c && c ≤ 'f' then c.toNat - 87
  else c.toNat - 55

/-- Parse the body of a JSON string literal (the opening quote already
consumed); returns the decoded characters and the rest after the closing
quote.  Surrogate pairing of `\u` escapes is not recombined (no claim input
uses it). -/
def jsonStrBody : Nat → Str → Option (Str × Str)
  | 0, _ => none
  | _, [] => none
  | fuel + 1, c :: rest =>
    if c == '"' then some ([], rest)
    else if c == '\\' then
      match rest with
      | [] => none
      | e :: rest2 =>
        let plain : Option Char :=
          if e == '"' then some '"'
          else if e == '\\' then some '\\'
          else if e == '/' then some '/'
          else if e == 'b' then some (Char.ofNat 8)
          else if e == 'f' then some (Char.ofNat 12)
          else if e == 'n' then some '\n'
          else if e == 'r' then some '\r'
          else if e == 't' then some '\t'
          else none
        match plain with
        | some d => (jsonStrBody fuel rest2).map (fun p => (d :: p.1, p.2))
        | none =>
          if e == 'u' then
            match rest2 with
            | h1 :: h2 :: h3 :: h4 :: rest3 =>
              if isHexDigit h1 && isHexDigit h2 && isHexDigit h3 && isHexDigit h4 then
                let n := ((hexVal h1 * 16 + hexVal h2) * 16 + hexVal h3) * 16 + hexVal h4
                (jsonStrBody fuel rest3).map (fun p => (Char.ofNat n :: p.1, p.2))
              else none
            | _ => none
          else none
    else if c.toNat < 32 then none
    else (jsonStrBody fuel rest).map (fun p => (c :: p.1, p.2))

/-- Parse a JSON number lexeme: `-?(0|[1-9][0-9]*)(\.[0-9]+)?([eE][+-]?[0-9]+)?`. -/
def jsonNumLex (t : Str) : Option (Str × Str) :=
  let (neg, t1) :=
    match t with
    | c :: rest => if c == '-' then ([c], rest) else ([], t)
    | [] => ([], t)
  match t1 with
  | [] => none
  | c :: rest =>
    if !isJsonDigit c then none
    else
      let (intPart, t2) :=
        if c == '0' then ([c], rest)
        else
          let (ds, r) := rest.span isJsonDigit
          (c :: ds, r)
      let (fracPart, t3) :=
        match t2 with
        | p :: r =>
          if p == '.' then
            let (ds, r2) := r.span isJsonDigit
            if ds.isEmpty then ([], none) else (p :: ds, some r2)
          else ([], some t2)
        | [] => ([], some t2)
      match t3 with
      | none => none
      | some t3v =>
        let (expPart, t4) :=
          match t3v with
          | e :: r =>
            if e == 'e' || e == 'E' then
              let (sign, r2) :=
                match r with
                | s :: r3 => if s == '+' || s == '-' then ([s], r3) else ([], r)
                | [] => ([], r)
              let (ds, r3) := r2.span isJsonDigit
              if ds.isEmpty then ([], none) else (e :: sign ++ ds, some r3)
            else ([], some t3v)
          | [] => ([], some t3v)
        match t4 with
        | none => none
        | some t4v => some (neg ++ intPart ++ fracPart ++ expPart, t4v)

mutual

/-- Recursive-descent JSON value parser (fuel-indexed; fuel is chosen large
enough by `jsonParse` that it is never exhausted on the inputs evaluated). -/
def jsonValue : Nat → Str → Option (Json × Str)
  | 0, _ => none
  | fuel + 1, t =>
    match dropLitCS (S "null") t with
    | some rest => some (Json.null, rest)
    | none =>
    match dropLitCS (S "true") t with
    | some rest => some (Json.bool true, rest)
    | none =>
    match dropLitCS (S "false") t with
    | some rest => some (Json.bool false, rest)
    | none =>
    match t with
    | [] => none
    | c :: rest =>
      if c == '"' then
        (jsonStrBody fuel rest).map (fun p => (Json.str p.1, p.2))
      else if c == obChar then
        let t1 := rest.dropWhile isJsonWs
        match t1 with
        | d :: rest2 =>
          if d == cbChar then some (Json.obj .nil, rest2)
          else
            (jsonMembers fuel t1).map (fun p => (Json.obj (JsonFields.ofList p.1), p.2))
        | [] => none
      else if c == '[' then
        let t1 := rest.dropWhile isJsonWs
        match t1 with
        | d :: rest2 =>
          if d == ']' then some (Json.arr .nil, rest2)
          else
            (jsonElems fuel t1).map (fun p => (Json.arr (JsonList.ofList p.1), p.2))
        | [] => none
      else
        (jsonNumLex t).map (fun p => (Json.num p.1, p.2))

/-- One-or-more comma-separated JSON values, then the closing `]`. -/
def jsonElems : Nat → Str → Option (List Json × Str)
  | 0, _ => none
  | fuel + 1, t =>
    match jsonValue fuel t with
    | none => none
    | some (v, rest) =>
      let t1 := rest.dropWhile isJsonWs
      match t1 with
      | d :: rest2 =>
        if d == ',' then
          (jsonElems fuel (rest2.dropWhile isJsonWs)).map (fun p => (v :: p.1, p.2))
        else if d == ']' then some ([v], rest2)
        else none
      | [] => none

/-- One-or-more comma-separated JSON object members, then the closing brace. -/
def jsonMembers : Nat → Str → Option (List (Str × Json) × Str)
  | 0, _ => none
  | fuel + 1, t =>
    match t with
    | c :: rest =>
      if c == '"' then
        match jsonStrBody fuel rest with
        | none => none
        | some (key, rest2) =>
          match rest2.dropWhile isJsonWs with
          | d :: rest3 =>
            if d == ':' then
              match jsonValue fuel (rest3.dropWhile isJsonWs) with
              | none => none
              | some (v, rest4) =>
                match rest4.dropWhile isJsonWs with
                | e :: rest5 =>
                  if e == ',' then
                    (jsonMembers fuel (rest5.dropWhile isJsonWs)).map
                      (fun p => ((key, v) :: p.1, p.2))
                  else if e == cbChar then some ([(key, v)], rest5)
                  else none
                | [] => none
            else none
          | [] => none
      else none
    | [] => none

end

/-- Model of `JSON.parse`: leading and trailing JSON whitespace tolerated,
otherwise the whole text must be one value; `none` models a thrown
`SyntaxError`. -/
def jsonParse (s : Str) : Option Json :=
  match jsonValue (4 * s.length + 16) (s.dropWhile isJsonWs) with
  | some (v, rest) => if rest.dropWhile isJsonWs |>.isEmpty then some v else none
  | none => none

/-! ## Data model (src/index.ts types) -/

/-- `ParameterType` union of src/index.ts. -/
inductive ParameterType where
  | string
  | number
  | boolean
  | object
  | array
  | unknown
  deriving DecidableEq, Repr

/-- The union member as the string it is in the source. -/
def ParameterType.lex : ParameterType → Str
  | .string => S "string"
  | .number => S "number"
  | .boolean => S "boolean"
  | .object => S "object"
  | .array => S "array"
  | .unknown => S "unknown"

structure ParameterInfo where
  name : Str
  type : ParameterType
  required : Bool
  deriving DecidableEq, Repr

/-- `ResponseExample` of src/index.ts.  `example` holds the JS value: the
parsed JSON on parse success, or the raw trailing text as a JS string on
failure (in JS both inhabit the same dynamic type). -/
structure RespExample where
  status : Nat
  exampleV : Json  -- the JS field `example` (Lean reserves that word)
  deriving DecidableEq, Repr

/-- `EndpointInfo` of src/index.ts as the extractors construct it.
`description = none` models the JS `undefined` (key omitted by
`JSON.stringify`); `requestBodySchema = none` and `response = none` model the
explicit JS `null` the extractors always assign. -/
structure EndpointInfo where
  method : Str
  path : Str
  description : Option Str
  parameters : List ParameterInfo
  requestBodySchema : Option Json
  response : Option RespExample
  framework : Str
  sourceFile : Str
  line : Option Nat
  deriving DecidableEq, Repr

structure ScanResult where
  scannedAt : Str
  rootDir : Str
  endpoints : List EndpointInfo
  warnings : List Str
  deriving DecidableEq, Repr

/-- `HTTP_METHODS` of src/index.ts. -/
def HTTP_METHODS : List Str := [S "GET", S "POST", S "PUT", S "DELETE"]

/-! ## Serialization (`JSON.stringify` on the endpoint objects)

`JSON.stringify` walks own properties in insertion order, prints `null`
values, and omits `undefined` values.  The serializers below produce the
`Json` value whose textual rendering `JSON.stringify` would emit; comparing
those values for equality coincides with comparing the emitted strings, since
member order is fixed by construction here on both sides of every comparison
made in this development. -/

def paramJson (p : ParameterInfo) : Json :=
  Json.obj (JsonFields.ofList
    [(S "name", Json.str p.name),
     (S "type", Json.str p.type.lex),
     (S "required", Json.bool p.required)])

def respJson (r : RespExample) : Json :=
  Json.obj (JsonFields.ofList
    [(S "status", Json.num (natLex r.status)),
     (S "example", r.exampleV)])

def endpointJson (e : EndpointInfo) : Json :=
  Json.obj (JsonFields.ofList (
    [(S "method", Json.str e.method), (S "path", Json.str e.path)]
    ++ (match e.description with
        | some d => [(S "description", Json.str d)]
        | none => [])
    ++ [(S "parameters", Json.arr (JsonList.ofList (e.parameters.map paramJson))),
        (S "requestBodySchema", match e.requestBodySchema with
          | some j => j
          | none => Json.null),
        (S "response", match e.response with
          | some r => respJson r
          | none => Json.null),
        (S "framework", Json.str e.framework),
        (S "sourceFile", Json.str e.sourceFile)]
    ++ (match e.line with
        | some n => [(S "line", Json.num (natLex n))]
        | none => [])))

def scanResultJson (sr : ScanResult) : Json :=
  Json.obj (JsonFields.ofList
    [(S "scannedAt", Json.str sr.scannedAt),
     (S "rootDir", Json.str sr.rootDir),
     (S "endpoints", Json.arr (JsonList.ofList (sr.endpoints.map endpointJson))),
     (S "warnings", Json.arr (JsonList.ofList (sr.warnings.map Json.str)))])

/-! ## detectParameterType (src/index.ts lines 57-65) -/

/-- JS `toLowerCase` on ASCII text. -/
def jsToLower (s : Str) : Str := s.map Char.toLower

def detectParameterType (raw : Str) : ParameterType :=
  let value := jsToLower raw
  if jsIncludes value (S "string") then .string
  else if jsIncludes value (S "number") || jsIncludes value (S "int")
          || jsIncludes value (S "float") then .number
  else if jsIncludes value (S "boolean") || jsIncludes value (S "bool") then .boolean
  else if jsIncludes value (S "array") then .array
  else if jsIncludes value (S "object") then .object
  else .unknown

/-! ## Documentation block locator (src/index.ts lines 55, 67-72)

`COMMENT_BLOCK_REGEX = /\/\*\*[\s\S]*?\*\//g` used through `String.match`,
which (with the `g` flag) ignores and does not update `lastIndex` and returns
all non-overlapping matches.  The lazy body means each block runs from a
`/**` opener to the first `*/` after it. -/

def commentBlocks : Nat → Str → List Str
  | 0, _ => []
  | fuel + 1, s =>
    match findSub (S "/**") s with
    | none => []
    | some i =>
      let after := (s.drop i).drop 3
      match findSub (S "*/") after with
      | none => []
      | some j =>
        ((s.drop i).take (3 + j + 2)) :: commentBlocks fuel (after.drop (j + 2))

def extractDocBlock (content : Str) (index : Nat) : Option Str :=
  (commentBlocks (content.length + 1) (content.take index)).getLast?

/-! ## Module-level regex state

All the `g`-flagged regexes of src/index.ts are module-level constants, so
their `lastIndex` fields are shared mutable state across every call into the
module.  The record below makes that state explicit; each field is one
regex's `lastIndex`. -/

structure RegexState where
  route : Nat
  fastify : Nat
  nest : Nat
  resp : Nat
  req : Nat
  par : Nat
  deriving DecidableEq, Repr

def initRegexState : RegexState := ⟨0, 0, 0, 0, 0, 0⟩

/-- Generic model of `exec` on a `g` regex whose pattern needs no look-behind:
searches for the leftmost match at or after `lastIndex`, returning the match
index, payload and updated `lastIndex`; a failed `exec` resets `lastIndex`
to 0 in JS, which callers model by replacing the state with 0 on `none`. -/
def execFromNP (tryAt : Str → Option (α × Nat)) (s : Str) (li : Nat) :
    Option (Nat × α × Nat) :=
  if li > s.length then none
  else
    match searchIdx tryAt (s.drop li) with
    | some (rel, (a, len)) => some (li + rel, a, li + rel + len)
    | none => none

/-! ## Annotation scanners (src/index.ts lines 51-53)

`PARAM_JSDOC_REGEX = /@param\s+\{([^}]+)\}\s+(\w+)/g`
`RESPONSE_EXAMPLE_REGEX = /@responseExample\s+(\d{3})\s+([\s\S]*?)(?=@|\*\/)/g`
`REQUEST_SCHEMA_REGEX = /@requestBody\s+([\s\S]*?)(?=@|\*\/)/g`

In each pattern every greedy piece is followed by a character its class
excludes, so maximal munch is exact; the lazy bodies stop at the first
position satisfying the lookahead (positions skipped by shrinking a preceding
`\s+` are whitespace and can never satisfy the lookahead, so no backtracking
into `\s+` can produce a different match). -/

/-- Attempt `@param\s+\{([^}]+)\}\s+(\w+)` anchored here; payload is
(type capture, name capture). -/
def paramTryAt (t : Str) : Option ((Str × Str) × Nat) :=
  match dropLitCS (S "@param") t with
  | none => none
  | some t1 =>
    let (ws1, t2) := t1.span isWsChar
    if ws1.isEmpty then none
    else
      match t2 with
      | c :: t3 =>
        if c == obChar then
          let (ty, t4) := t3.span (fun d => !(d == cbChar))
          if ty.isEmpty then none
          else
            match t4 with
            | d :: t5 =>
              if d == cbChar then
                let (ws2, t6) := t5.span isWsChar
                if ws2.isEmpty then none
                else
                  let (nm, _) := t6.span isWordChar
                  if nm.isEmpty then none
                  else some ((ty, nm),
                    6 + ws1.length + 1 + ty.length + 1 + ws2.length + nm.length)
              else none
            | [] => none
        else none
      | [] => none

/-- First position satisfying the lookahead `(?=@|\*\/)`. -/
def findStop : Str → Option Nat
  | [] => none
  | c :: rest =>
    if c == '@' || (c == '*' && (match rest with | d :: _ => d == '/' | [] => false)) then
      some 0
    else (findStop rest).map (· + 1)

/-- Attempt `@responseExample\s+(\d{3})\s+([\s\S]*?)(?=@|\*\/)` anchored here;
payload is (status digits, body capture). -/
def respTryAt (t : Str) : Option ((Str × Str) × Nat) :=
  match dropLitCS (S "@responseExample") t with
  | none => none
  | some t1 =>
    let (ws1, t2) := t1.span isWsChar
    if ws1.isEmpty then none
    else
      match t2 with
      | d1 :: d2 :: d3 :: t3 =>
        if isJsonDigit d1 && isJsonDigit d2 && isJsonDigit d3 then
          let (ws2, t4) := t3.span isWsChar
          if ws2.isEmpty then none
          else
            match findStop t4 with
            | some k => some (([d1, d2, d3], t4.take k),
                16 + ws1.length + 3 + ws2.length + k)
            | none => none
        else none
      | _ => none

/-- Attempt `@requestBody\s+([\s\S]*?)(?=@|\*\/)` anchored here; payload is
the body capture. -/
def reqTryAt (t : Str) : Option (Str × Nat) :=
  match dropLitCS (S "@requestBody") t with
  | none => none
  | some t1 =>
    let (ws1, t2) := t1.span isWsChar
    if ws1.isEmpty then none
    else
      match findStop t2 with
      | some k => some (t2.take k, 12 + ws1.length + k)
      | none => none

/-! ## Annotation parser (src/index.ts lines 74-130) -/

/-- Result record of `parseDocBlock`. -/
structure DocInfo where
  description : Option Str
  params : List ParameterInfo
  requestBodySchema : Option Json
  response : Option RespExample
  deriving DecidableEq, Repr

/-- `line.replace(/^\s*\*\s?/, "")`: the pattern only matches (and is
removed) when the first non-whitespace character is `*`; otherwise the line
is returned unchanged. -/
def stripStarDecoration (line : Str) : Str :=
  let r1 := line.dropWhile isWsChar
  match r1 with
  | c :: r2 =>
    if c == '*' then
      match r2 with
      | d :: r3 => if isWsChar d then r3 else r2
      | [] => []
    else line
  | [] => line

/-- The free-text description of a block: decorated lines stripped and
trimmed, annotation lines and empty lines dropped, the rest joined with
single spaces; empty result becomes `undefined`. -/
def docDescription (b : Str) : Option Str :=
  let lines := (splitOnNl b).map (fun line => jsTrim (stripStarDecoration line))
  let kept := lines.filter (fun line =>
    !line.isEmpty && !(match line with | c :: _ => c == '@' | [] => false))
  let joined := jsTrim (List.intercalate (S " ") kept)
  if joined.isEmpty then none else some joined

/-- The `while ((match = PARAM_JSDOC_REGEX.exec(block)))` loop.  The loop
runs `exec` to exhaustion, so it always leaves that regex's `lastIndex`
at 0; the entry `lastIndex` is still threaded in for fidelity. -/
def paramLoop : Nat → Str → Nat → List ParameterInfo
  | 0, _, _ => []
  | fuel + 1, b, li =>
    match execFromNP paramTryAt b li with
    | none => []
    | some (_, (ty, nm), li2) =>
      if nm.isEmpty then paramLoop fuel b li2
      else
        { name := nm
          type := detectParameterType ty
          required := !(jsIncludes ty (S "=")) } :: paramLoop fuel b li2

/-- `parseDocBlock`, with the shared regex state made explicit.  The single
(un-drained) `exec` calls on `RESPONSE_EXAMPLE_REGEX` and
`REQUEST_SCHEMA_REGEX` start from the `lastIndex` the previous call left and
store the new one, exactly as the JS engine does for a `g` regex. -/
def parseDocBlockSt (block : Option Str) (st : RegexState) : DocInfo × RegexState :=
  match block with
  | none =>
    ({ description := none, params := [], requestBodySchema := none, response := none }, st)
  | some b =>
    let description := docDescription b
    let params := paramLoop (b.length + 1) b st.par
    let (response, respLI) :=
      match execFromNP respTryAt b st.resp with
      | some (_, (status, cap), li2) =>
        let exampleRaw := jsTrim cap
        let exampleVal :=
          match jsonParse exampleRaw with
          | some j => j
          | none => Json.str exampleRaw
        (some { status := natOfDigits status, exampleV := exampleVal }, li2)
      | none => (none, 0)
    let (requestBodySchema, reqLI) :=
      match execFromNP reqTryAt b st.req with
      | some (_, cap, li2) =>
        let schemaRaw := jsTrim cap
        let schema :=
          match jsonParse schemaRaw with
          | some j => j
          | none => Json.obj (.cons (S "schema") (Json.str schemaRaw) .nil)
        (some schema, li2)
      | none => (none, 0)
    ({ description := description, params := params,
       requestBodySchema := requestBodySchema, response := response },
     { st with resp := respLI, req := reqLI, par := 0 })

/-! ## Framework matchers (src/index.ts lines 47-49, 132-199)

`ROUTE_METHOD_REGEX = /\b(get|post|put|delete)\s*\(\s*[`"']([^`"']+)[`"']/gi`
`FASTIFY_ROUTE_REGEX = /\broute\s*\(\s*\{[\s\S]*?method\s*:\s*[`"'](GET|POST|PUT|DELETE)[`"'][\s\S]*?url\s*:\s*[`"']([^`"']+)[`"'][\s\S]*?\}\s*\)/gi`
`NEST_DECORATOR_REGEX = /@(Get|Post|Put|Delete)\s*\(\s*[`"']([^`"']*)[`"']?\s*\)/g`

In the first two patterns every greedy `\s*` is followed by a
non-whitespace literal and the greedy `([^`"']+)` by a member of the very
class it excludes, so maximal munch needs no backtracking.  The nest
pattern's `([^`"']*)[`"']?\s*\)` genuinely backtracks (the starred class
accepts whitespace and `)`), which `nestDescendRev` implements by trying the
maximal run first and retreating one character at a time — the greedy
leftmost-longest order of the JS engine. -/

/-- JS `toUpperCase` on ASCII text. -/
def jsToUpper (s : Str) : Str := s.map Char.toUpper

/-- Attempt `ROUTE_METHOD_REGEX` anchored here; payload (verb capture as
written, path capture). -/
def routeTryAt (prev : Option Char) (t : Str) : Option ((Str × Str) × Nat) :=
  if !atWordBoundary prev t then none
  else
    match altDropCI [S "get", S "post", S "put", S "delete"] t with
    | none => none
    | some (verb, t1) =>
      let (ws1, t2) := t1.span isWsChar
      match t2 with
      | c :: t3 =>
        if c == '(' then
          let (ws2, t4) := t3.span isWsChar
          match t4 with
          | q :: t5 =>
            if isQuoteChar q then
              let (pathRun, t6) := t5.span (fun d => !isQuoteChar d)
              if pathRun.isEmpty then none
              else
                match t6 with
                | q2 :: _ =>
                  if isQuoteChar q2 then
                    some ((verb, pathRun),
                      verb.length + ws1.length + 1 + ws2.length + 1 + pathRun.length + 1)
                  else none
                | [] => none
            else none
          | [] => none
        else none
      | [] => none

/-- Model of `exec` for the word-boundary-anchored `g` regexes: leftmost
match at or after `lastIndex`; the boundary test sees the character before
the candidate position. -/
def execFromWB (tryAt : Option Char → Str → Option (α × Nat)) (s : Str) (li : Nat) :
    Option (Nat × α × Nat) :=
  if li > s.length then none
  else
    match searchIdxPrev tryAt ((s.take li).getLast?) (s.drop li) with
    | some (rel, (a, len)) => some (li + rel, a, li + rel + len)
    | none => none

/-- Model of `regex.test(s)` on a `g` regex: advances `lastIndex` past the
match on success, resets it to 0 on failure. -/
def routeRegexTest (s : Str) (li : Nat) : Bool × Nat :=
  match execFromWB routeTryAt s li with
  | some (_, _, li2) => (true, li2)
  | none => (false, 0)

/-- `method\s*:\s*[`"'](GET|POST|PUT|DELETE)[`"']` anchored here (pattern is
`i`-flagged). -/
def fastifyMethodTry (t : Str) : Option (Str × Nat) :=
  match dropLitCI (S "method") t with
  | none => none
  | some t1 =>
    let (ws1, t2) := t1.span isWsChar
    match t2 with
    | c :: t3 =>
      if c == ':' then
        let (ws2, t4) := t3.span isWsChar
        match t4 with
        | q :: t5 =>
          if isQuoteChar q then
            match altDropCI [S "GET", S "POST", S "PUT", S "DELETE"] t5 with
            | some (verb, t6) =>
              match t6 with
              | q2 :: _ =>
                if isQuoteChar q2 then
                  some (verb, 6 + ws1.length + 1 + ws2.length + 1 + verb.length + 1)
                else none
              | [] => none
            | none => none
          else none
        | [] => none
      else none
    | [] => none

/-- `url\s*:\s*[`"']([^`"']+)[`"']` anchored here. -/
def fastifyUrlTry (t : Str) : Option (Str × Nat) :=
  match dropLitCI (S "url") t with
  | none => none
  | some t1 =>
    let (ws1, t2) := t1.span isWsChar
    match t2 with
    | c :: t3 =>
      if c == ':' then
        let (ws2, t4) := t3.span isWsChar
        match t4 with
        | q :: t5 =>
          if isQuoteChar q then
            let (run, t6) := t5.span (fun d => !isQuoteChar d)
            if run.isEmpty then none
            else
              match t6 with
              | q2 :: _ =>
                if isQuoteChar q2 then
                  some (run, 3 + ws1.length + 1 + ws2.length + 1 + run.length + 1)
                else none
              | [] => none
          else none
        | [] => none
      else none
    | [] => none

/-- `\}\s*\)` anchored here. -/
def fastifyCloseTry (t : Str) : Option Nat :=
  match t with
  | c :: t1 =>
    if c == cbChar then
      let (ws, t2) := t1.span isWsChar
      match t2 with
      | d :: _ => if d == ')' then some (1 + ws.length + 1) else none
      | [] => none
    else none
  | [] => none

/-- `url` part followed by the lazy search for the closing `\}\s*\)`. -/
def fastifyUrlClose (w : Str) : Option (Str × Nat) :=
  match fastifyUrlTry w with
  | none => none
  | some (url, n2) =>
    match searchIdx fastifyCloseTry (w.drop n2) with
    | some (k3, n3) => some (url, n2 + k3 + n3)
    | none => none

/-- `method` part followed by the lazy searches for `url` and the closer.
A position where the `method` piece matches but the remainder never does is
abandoned, exactly as the engine backtracks a lazy `[\s\S]*?`. -/
def fastifyMethodToEnd (u : Str) : Option ((Str × Str) × Nat) :=
  match fastifyMethodTry u with
  | none => none
  | some (verb, n1) =>
    match searchIdx fastifyUrlClose (u.drop n1) with
    | some (k2, (url, n2)) => some ((verb, url), n1 + k2 + n2)
    | none => none

/-- Attempt `FASTIFY_ROUTE_REGEX` anchored here. -/
def fastifyTryAt (prev : Option Char) (t : Str) : Option ((Str × Str) × Nat) :=
  if !atWordBoundary prev t then none
  else
    match dropLitCI (S "route") t with
    | none => none
    | some t1 =>
      let (ws1, t2) := t1.span isWsChar
      match t2 with
      | c :: t3 =>
        if c == '(' then
          let (ws2, t4) := t3.span isWsChar
          match t4 with
          | b :: t5 =>
            if b == obChar then
              match searchIdx fastifyMethodToEnd t5 with
              | some (k1, (caps, n)) =>
                some (caps, 5 + ws1.length + 1 + ws2.length + 1 + k1 + n)
              | none => none
            else none
          | [] => none
        else none
      | [] => none

def fastifyRegexTest (s : Str) (li : Nat) : Bool × Nat :=
  match execFromWB fastifyTryAt s li with
  | some (_, _, li2) => (true, li2)
  | none => (false, 0)

/-- `\s*\)` anchored here. -/
def closeParenTail (t : Str) : Option Nat :=
  let (ws, t1) := t.span isWsChar
  match t1 with
  | c :: _ => if c == ')' then some (ws.length + 1) else none
  | [] => none

/-- `[`"']?\s*\)` anchored here: the optional quote is tried greedily first. -/
def nestAfterPath (t : Str) : Option Nat :=
  match t with
  | q :: t1 =>
    if isQuoteChar q then
      match closeParenTail t1 with
      | some n => some (n + 1)
      | none => closeParenTail t
    else closeParenTail t
  | [] => none

/-- Greedy-with-backtracking search for the `([^`"']*)` capture of the nest
pattern: the candidate capture arrives reversed, the full (maximal) run is
tried first, then one trailing character at a time is given back. -/
def nestDescendRev : Str → Str → Option (Str × Nat)
  | [], rest =>
    match nestAfterPath rest with
    | some n => some ([], n)
    | none => none
  | c :: more, rest =>
    match nestAfterPath rest with
    | some n => some ((c :: more).reverse, n)
    | none => nestDescendRev more (c :: rest)

/-- Attempt `NEST_DECORATOR_REGEX` anchored here (case-sensitive, no word
boundary); payload (verb capture, path capture — possibly empty). -/
def nestTryAt (t : Str) : Option ((Str × Str) × Nat) :=
  match t with
  | a :: t1 =>
    if a == '@' then
      match altDropCS [S "Get", S "Post", S "Put", S "Delete"] t1 with
      | some (verb, t2) =>
        let (ws1, t3) := t2.span isWsChar
        match t3 with
        | p :: t4 =>
          if p == '(' then
            let (ws2, t5) := t4.span isWsChar
            match t5 with
            | q :: t6 =>
              if isQuoteChar q then
                let (run, rest) := t6.span (fun d => !isQuoteChar d)
                match nestDescendRev run.reverse rest with
                | some (cap, n) =>
                  some ((verb, cap),
                    1 + verb.length + ws1.length + 1 + ws2.length + 1 + cap.length + n)
                | none => none
              else none
            | [] => none
          else none
        | [] => none
      | none => none
    else none
  | [] => none

/-! ## Extraction loops

Each mirrors one `while ((match = REGEX.exec(content)))` loop.  The fuel
argument only bounds the recursion; every iteration moves `lastIndex`
strictly forward, so `content.length + 2` is never exhausted. -/

def expressLoop : Nat → Str → Str → Nat → RegexState → List EndpointInfo × RegexState
  | 0, _, _, _, st => ([], st)
  | fuel + 1, fp, content, li, st =>
    match execFromWB routeTryAt content li with
    | none => ([], { st with route := 0 })
    | some (idx, (verb, rpath), li2) =>
      let method := jsToUpper verb
      if HTTP_METHODS.contains method && !rpath.isEmpty then
        let pr := parseDocBlockSt (extractDocBlock content idx) st
        let e : EndpointInfo :=
          { method := method, path := rpath,
            description := pr.1.description,
            parameters := pr.1.params,
            requestBodySchema := pr.1.requestBodySchema,
            response := pr.1.response,
            framework := S "express",
            sourceFile := fp, line := none }
        (e :: (expressLoop fuel fp content li2 pr.2).1,
         (expressLoop fuel fp content li2 pr.2).2)
      else expressLoop fuel fp content li2 st

/-- `extractExpressRoutes`: starts from the shared `lastIndex` the
applicability `test` left behind; the drained loop leaves it at 0. -/
def extractExpressRoutes (fp content : Str) (st : RegexState) :
    List EndpointInfo × RegexState :=
  expressLoop (content.length + 2) fp content st.route st

def fastifyLoop : Nat → Str → Str → Nat → RegexState → List EndpointInfo × RegexState
  | 0, _, _, _, st => ([], st)
  | fuel + 1, fp, content, li, st =>
    match execFromWB fastifyTryAt content li with
    | none => ([], { st with fastify := 0 })
    | some (idx, (verb, rpath), li2) =>
      let method := jsToUpper verb
      if HTTP_METHODS.contains method && !rpath.isEmpty then
        let pr := parseDocBlockSt (extractDocBlock content idx) st
        let e : EndpointInfo :=
          { method := method, path := rpath,
            description := pr.1.description,
            parameters := pr.1.params,
            requestBodySchema := pr.1.requestBodySchema,
            response := pr.1.response,
            framework := S "fastify",
            sourceFile := fp, line := none }
        (e :: (fastifyLoop fuel fp content li2 pr.2).1,
         (fastifyLoop fuel fp content li2 pr.2).2)
      else fastifyLoop fuel fp content li2 st

def extractFastifyRoutes (fp content : Str) (st : RegexState) :
    List EndpointInfo × RegexState :=
  fastifyLoop (content.length + 2) fp content st.fastify st

def nestLoop : Nat → Str → Str → Nat → RegexState → List EndpointInfo × RegexState
  | 0, _, _, _, st => ([], st)
  | fuel + 1, fp, content, li, st =>
    match execFromNP nestTryAt content li with
    | none => ([], { st with nest := 0 })
    | some (idx, (verb, rpath), li2) =>
      let method := jsToUpper verb
      if HTTP_METHODS.contains method then
        let pr := parseDocBlockSt (extractDocBlock content idx) st
        let e : EndpointInfo :=
          { method := method,
            path := if rpath.isEmpty then S "/" else rpath,
            description := pr.1.description,
            parameters := pr.1.params,
            requestBodySchema := pr.1.requestBodySchema,
            response := pr.1.response,
            framework := S "nestjs",
            sourceFile := fp, line := none }
        (e :: (nestLoop fuel fp content li2 pr.2).1,
         (nestLoop fuel fp content li2 pr.2).2)
      else nestLoop fuel fp content li2 st

def extractNestRoutes (fp content : Str) (st : RegexState) :
    List EndpointInfo × RegexState :=
  nestLoop (content.length + 2) fp content st.nest st

/-! ## Applicability tests (src/index.ts lines 201-222) -/

/-- One position of `/\bLIT\b/`: boundary, literal, boundary. -/
def wordTokenAt (lit : Str) (prev : Option Char) (t : Str) : Option Unit :=
  if atWordBoundary prev t then
    match dropLitCS lit t with
    | some rest =>
      match rest with
      | [] => some ()
      | c :: _ => if isWordChar c then none else some ()
    | none => none
  else none

def hasWordToken (lit : Str) (s : Str) : Bool :=
  (searchIdxPrev (wordTokenAt lit) none s).isSome

/-- `/\bexpress\b|\bRouter\b/.test(content)` (no `g` flag: stateless). -/
def expressMarker (content : Str) : Bool :=
  hasWordToken (S "express") content || hasWordToken (S "Router") content

/-- `/\bfastify\b/.test(content)` (stateless). -/
def fastifyMarker (content : Str) : Bool := hasWordToken (S "fastify") content

/-- `/@Controller\b/.test(content)` (stateless). -/
def controllerMarker (content : Str) : Bool :=
  (searchIdx (fun t =>
    match dropLitCS (S "@Controller") t with
    | some rest =>
      match rest with
      | [] => some ()
      | c :: _ => if isWordChar c then none else some ()
    | none => none) content).isSome

def endsWithTs (fp : Str) : Bool := (S ".ts").isSuffixOf fp

/-- The express plugin's `match`: the second conjunct runs
`ROUTE_METHOD_REGEX.test(content)` on the shared `g` regex, moving its
`lastIndex`; short-circuiting skips it when the marker is absent. -/
def expressMatch (content : Str) (st : RegexState) : Bool × RegexState :=
  if expressMarker content then
    let (b, li) := routeRegexTest content st.route
    (b, { st with route := li })
  else (false, st)

def fastifyMatch (content : Str) (st : RegexState) : Bool × RegexState :=
  if fastifyMarker content then
    let (b, li) := fastifyRegexTest content st.fastify
    (b, { st with fastify := li })
  else (false, st)

def nestMatch (fp content : Str) : Bool := endsWithTs fp && controllerMarker content

/-! ## Orchestrator over the default plugins (src/index.ts lines 243-273)

Filesystem traversal and file reading are collaborator interfaces: the scan
takes the list of (path, content) pairs and the completion timestamp as
inputs.  The built-in extractors are total, so the `try`/`catch` around
`plugin.extract` never fires here and `warnings` stays empty; the generic
orchestrator model below (`scanProjectWith`) covers throwing plugins. -/

def scanFileDefault (fp content : Str) (st : RegexState) :
    List EndpointInfo × RegexState :=
  let (mExpress, st1) := expressMatch content st
  let (mFastify, st2) := fastifyMatch content st1
  let mNest := nestMatch fp content
  if !mExpress && !mFastify && !mNest then ([], st2)
  else
    let (es1, st3) := if mExpress then extractExpressRoutes fp content st2 else ([], st2)
    let (es2, st4) := if mFastify then extractFastifyRoutes fp content st3 else ([], st3)
    let (es3, st5) := if mNest then extractNestRoutes fp content st4 else ([], st4)
    (es1 ++ es2 ++ es3, st5)

def scanFilesDefault : List (Str × Str) → RegexState → List EndpointInfo × RegexState
  | [], st => ([], st)
  | (fp, content) :: rest, st =>
    let (es, st1) := scanFileDefault fp content st
    let (more, st2) := scanFilesDefault rest st1
    (es ++ more, st2)

/-- `scanBackendProject` with the default plugin list, over the collaborator
file list, threading the module-level regex state. -/
def scanBackendProject (files : List (Str × Str)) (now rootDir : Str)
    (st : RegexState) : ScanResult × RegexState :=
  let (endpoints, st1) := scanFilesDefault files st
  ({ scannedAt := now, rootDir := rootDir, endpoints := endpoints, warnings := [] }, st1)

/-! ## Generic-plugin orchestrator

`scanBackendProject` accepts any `FrameworkPlugin[]`.  A plugin here is a
pair of total functions; a throwing `extract` is an `Except.error` result
(the JS error value itself is never inspected, only caught). -/

structure FrameworkPlugin where
  pname : Str
  applies : Str → Str → Bool
  extractE : Str → Str → Except Unit (List EndpointInfo)

/-- The warning string `Failed to parse ${filePath} with ${plugin.name}`. -/
def warnMsg (fp pname : Str) : Str :=
  S "Failed to parse " ++ fp ++ S " with " ++ pname

/-- The inner `for (const plugin of matchedPlugins)` loop: endpoints of
successful extractions and warnings of caught failures, in plugin order. -/
def runPlugins (fp content : Str) : List FrameworkPlugin → List EndpointInfo × List Str
  | [] => ([], [])
  | p :: rest =>
    let here : List EndpointInfo × List Str :=
      match p.extractE fp content with
      | .ok es => (es, [])
      | .error _ => ([], [warnMsg fp p.pname])
    let (es, ws) := runPlugins fp content rest
    (here.1 ++ es, here.2 ++ ws)

/-- The outer `for (const filePath of files)` loop.  A file no plugin
matches is skipped (`continue`). -/
def scanFilesWith (plugins : List FrameworkPlugin) :
    List (Str × Str) → List EndpointInfo × List Str
  | [] => ([], [])
  | (fp, content) :: rest =>
    let matched := plugins.filter (fun p => p.applies fp content)
    let here := if matched.isEmpty then (([], []) : List EndpointInfo × List Str)
                else runPlugins fp content matched
    let (es, ws) := scanFilesWith plugins rest
    (here.1 ++ es, here.2 ++ ws)

/-- `scanBackendProject` over an arbitrary plugin list. -/
def scanProjectWith (files : List (Str × Str)) (plugins : List FrameworkPlugin)
    (now rootDir : Str) : ScanResult :=
  let (endpoints, warnings) := scanFilesWith plugins files
  { scannedAt := now, rootDir := rootDir, endpoints := endpoints, warnings := warnings }

/-! ## Snapshot reconciler (src/output.ts)

`readExisting` (filesystem read plus `JSON.parse`, with any failure mapped
to `null`) is a collaborator interface: the prior snapshot arrives as an
`Option ScanResult`.  `normalizeForCompare` is `JSON.stringify(endpoint)`;
it is modelled as the `Json` value `endpointJson` since the only use is
equality of the serialized forms, and member order is fixed by construction
(see the serializer comment above). -/

def endpointKey (e : EndpointInfo) : Str := e.method ++ S " " ++ e.path

def normalizeForCompare (e : EndpointInfo) : Json := endpointJson e

/-- Lookup in the `Map` built by `new Map(entries)`: a later entry with the
same key overwrites an earlier one, so a lookup finds the value of the last
matching entry. -/
def mapGet (pairs : List (Str × Json)) (k : Str) : Option Json :=
  (pairs.reverse.find? (fun p => p.1 == k)).map (fun p => p.2)

structure OutputWriteOptions where
  rootDir : Str
  incremental : Bool

structure OutputWriteResult where
  outputPath : Str
  wroteFile : Bool
  endpointsWritten : Nat
  endpointsUnchanged : Nat
  deriving DecidableEq, Repr

/-- `path.join(rootDir, ".zeus-core", "output.json")` on POSIX separators. -/
def outputPathOf (rootDir : Str) : Str := rootDir ++ S "/.zeus-core/output.json"

/-- The `for (const endpoint of data.endpoints)` reconciliation loop:
returns `nextEndpoints` and the unchanged count.  Both branches of the
source `if` push the endpoint; only the counter differs. -/
def reconcile (existing : List (Str × Json)) : List EndpointInfo → List EndpointInfo × Nat
  | [] => ([], 0)
  | e :: rest =>
    let hit :=
      match mapGet existing (endpointKey e) with
      | some serialized => serialized == normalizeForCompare e
      | none => false
    let (tail, n) := reconcile existing rest
    (e :: tail, if hit then n + 1 else n)

/-- `writeOutputJson`.  Returns the `ScanResult` written to disk together
with the report; directory creation and the write itself are collaborator
effects that either succeed (modelled) or propagate (outside the model, per
the spec's fatal-error policy). -/
def writeOutputJson (data : ScanResult) (options : OutputWriteOptions)
    (prior : Option ScanResult) : ScanResult × OutputWriteResult :=
  let outputPath := outputPathOf options.rootDir
  if options.incremental then
    match prior with
    | some existing =>
      let existingMap := existing.endpoints.map
        (fun e => (endpointKey e, normalizeForCompare e))
      let nextEndpoints := (reconcile existingMap data.endpoints).1
      let unchanged := (reconcile existingMap data.endpoints).2
      ({ data with endpoints := nextEndpoints },
       { outputPath := outputPath, wroteFile := true,
         endpointsWritten := nextEndpoints.length, endpointsUnchanged := unchanged })
    | none =>
      (data, { outputPath := outputPath, wroteFile := true,
               endpointsWritten := data.endpoints.length, endpointsUnchanged := 0 })
  else
    (data, { outputPath := outputPath, wroteFile := true,
             endpointsWritten := data.endpoints.length, endpointsUnchanged := 0 })

/-! # Theorems -/

/-! ## Shared lemmas -/

/-- The reconciliation loop keeps every new endpoint, in order. -/
theorem reconcile_fst (ex : List (Str × Json)) :
    ∀ l : List EndpointInfo, (reconcile ex l).1 = l := by
  intro l
  induction l with
  | nil => rfl
  | cons e rest ih => simp [reconcile, ih]

/-- When every element of the loop's input hits an identical map entry, the
unchanged counter reaches the full length. -/
theorem reconcile_snd_full (ex : List (Str × Json)) :
    ∀ l : List EndpointInfo,
      (∀ e ∈ l, mapGet ex (endpointKey e) = some (normalizeForCompare e)) →
      (reconcile ex l).2 = l.length := by
  intro l
  induction l with
  | nil => intro _; rfl
  | cons e rest ih =>
    intro h
    have he := h e (List.mem_cons_self e rest)
    have hrest := ih (fun x hx => h x (List.mem_cons_of_mem e hx))
    simp [reconcile, he, hrest]

/-- `writeOutputJson` never drops or reorders endpoints, whatever the mode
and prior snapshot. -/
theorem writeOutputJson_endpoints (data : ScanResult) (options : OutputWriteOptions)
    (prior : Option ScanResult) :
    ((writeOutputJson data options prior).1).endpoints = data.endpoints := by
  unfold writeOutputJson
  cases hinc : options.incremental with
  | false => simp
  | true =>
    cases prior with
    | none => simp
    | some existing => simp [reconcile_fst]

/-- Looking up an element's key in the last-wins map built from a list it
belongs to yields the serialization of some same-key element of that list. -/
theorem mapGet_self_map (l : List EndpointInfo) (e : EndpointInfo) (he : e ∈ l) :
    ∃ x ∈ l, endpointKey x = endpointKey e ∧
      mapGet (l.map (fun x => (endpointKey x, normalizeForCompare x))) (endpointKey e)
        = some (normalizeForCompare x) := by
  unfold mapGet
  rw [← List.map_reverse]
  have hrev : e ∈ l.reverse := List.mem_reverse.mpr he
  cases hfind : (l.reverse.map (fun x => (endpointKey x, normalizeForCompare x))).find?
      (fun p => p.1 == endpointKey e) with
  | none =>
    exfalso
    have hall := List.find?_eq_none.mp hfind
      (endpointKey e, normalizeForCompare e)
      (List.mem_map.mpr ⟨e, hrev, rfl⟩)
    simp at hall
  | some p =>
    have hmem := List.mem_of_find?_eq_some hfind
    have hpred := List.find?_some hfind
    obtain ⟨x, hx, hxp⟩ := List.mem_map.mp hmem
    refine ⟨x, List.mem_reverse.mp hx, ?_, ?_⟩
    · have hp1 : p.1 = endpointKey e := eq_of_beq hpred
      rw [← hxp] at hp1
      simpa using hp1
    · simp [← hxp]

/-- When any two same-key endpoints of a list serialize identically,
reconciling the list against the map built from itself counts every entry as
unchanged. -/
theorem unchanged_full_of_coherent (l : List EndpointInfo)
    (hcoh : ∀ a ∈ l, ∀ b ∈ l,
      endpointKey a = endpointKey b → normalizeForCompare a = normalizeForCompare b) :
    (reconcile (l.map (fun x => (endpointKey x, normalizeForCompare x))) l).2
      = l.length := by
  apply reconcile_snd_full
  intro e he
  obtain ⟨x, hx, hkey, hget⟩ := mapGet_self_map l e he
  rw [hget, hcoh x hx e he hkey]

/-! ## C3 -/

/-- C3: for every ScanResult persisted with incremental mode on and a
readable prior snapshot, the endpoint list written to disk is exactly the new
scan's endpoint list in the same order — no entry is suppressed whatever its
unchanged status — and the reported `endpointsWritten` equals the number of
endpoints in the input ScanResult. -/
theorem c3_incremental_output_complete (data : ScanResult) (prior : ScanResult)
    (rootDir : Str) :
    ((writeOutputJson data { rootDir := rootDir, incremental := true } (some prior)).1).endpoints
        = data.endpoints
    ∧ ((writeOutputJson data { rootDir := rootDir, incremental := true } (some prior)).2).endpointsWritten
        = data.endpoints.length := by
  refine ⟨writeOutputJson_endpoints .., ?_⟩
  simp [writeOutputJson, reconcile_fst]

/-! ## C4 -/

def c4e1 : EndpointInfo :=
  { method := S "GET", path := S "/a", description := none, parameters := [],
    requestBodySchema := none, response := none, framework := S "express",
    sourceFile := S "a.js", line := none }

/-- Same `method + " " + path` key as `c4e1`, different serialized form. -/
def c4e2 : EndpointInfo := { c4e1 with description := some (S "x") }

def c4data : ScanResult :=
  { scannedAt := S "t", rootDir := S "r", endpoints := [c4e1, c4e2], warnings := [] }

/-- C4 counterexample: persisting a scan holding two endpoints that share the
key `GET /a` but differ in serialized form, then persisting the identical
scan incrementally, reports `endpointsUnchanged = 1` while
`endpointsWritten = 2` — the last-wins snapshot lookup hides the earlier
duplicate, so the claim's equality fails for duplicate-key scans. -/
theorem c4_duplicate_key_counterexample :
    ¬ (((writeOutputJson c4data { rootDir := S "r", incremental := true }
          (some (writeOutputJson c4data { rootDir := S "r", incremental := true } none).1)).2).endpointsUnchanged
        = ((writeOutputJson c4data { rootDir := S "r", incremental := true }
          (some (writeOutputJson c4data { rootDir := S "r", incremental := true } none).1)).2).endpointsWritten) := by
  decide

/-- C4 (amended): persisting a scan and then persisting an identical scan in
incremental mode reports `endpointsUnchanged` equal to `endpointsWritten`
and to the total endpoint count, provided any two endpoints sharing a
method+path key have identical serialized forms (in particular whenever all
keys are distinct); with duplicate keys of differing forms, only the
last-inserted form is compared against, and earlier duplicates are not
counted unchanged. -/
theorem c4_incremental_round_trip (data : ScanResult) (rd1 rd2 : Str)
    (inc1 : Bool) (prior1 : Option ScanResult)
    (hcoh : ∀ a ∈ data.endpoints, ∀ b ∈ data.endpoints,
      endpointKey a = endpointKey b → normalizeForCompare a = normalizeForCompare b) :
    ((writeOutputJson data { rootDir := rd2, incremental := true }
        (some (writeOutputJson data { rootDir := rd1, incremental := inc1 } prior1).1)).2).endpointsUnchanged
      = data.endpoints.length
  ∧ ((writeOutputJson data { rootDir := rd2, incremental := true }
        (some (writeOutputJson data { rootDir := rd1, incremental := inc1 } prior1).1)).2).endpointsWritten
      = data.endpoints.length := by
  have hsnap : ((writeOutputJson data { rootDir := rd1, incremental := inc1 } prior1).1).endpoints
      = data.endpoints := writeOutputJson_endpoints ..
  constructor
  · show (reconcile (((writeOutputJson data { rootDir := rd1, incremental := inc1 } prior1).1).endpoints.map
        (fun e => (endpointKey e, normalizeForCompare e))) data.endpoints).2 = data.endpoints.length
    rw [hsnap]
    exact unchanged_full_of_coherent data.endpoints hcoh
  · show (reconcile (((writeOutputJson data { rootDir := rd1, incremental := inc1 } prior1).1).endpoints.map
        (fun e => (endpointKey e, normalizeForCompare e))) data.endpoints).1.length = data.endpoints.length
    rw [reconcile_fst]

/-- Witness for C4 (amended) at a concrete two-endpoint scan with distinct
keys. -/
def c4wData : ScanResult :=
  { scannedAt := S "t", rootDir := S "r",
    endpoints := [c4e1, { c4e1 with path := S "/b" }], warnings := [] }

theorem c4_incremental_round_trip_witness :
    ((writeOutputJson c4wData { rootDir := S "r", incremental := true }
        (some (writeOutputJson c4wData { rootDir := S "r", incremental := false } none).1)).2).endpointsUnchanged
      = 2
  ∧ ((writeOutputJson c4wData { rootDir := S "r", incremental := true }
        (some (writeOutputJson c4wData { rootDir := S "r", incremental := false } none).1)).2).endpointsWritten
      = 2 :=
  c4_incremental_round_trip c4wData (S "r") (S "r") false none (by decide)

/-! ## C10 -/

/-- C10: `detectParameterType` classifies by the fixed keyword priority
string, then number/int/float, then boolean/bool, then array, then object,
defaulting to unknown — so a type text containing several keywords takes the
highest-priority one; in particular `Array<string>` classifies as string,
not array. -/
theorem c10_detectParameterType_priority (raw : Str) :
    (jsIncludes (jsToLower raw) (S "string") = true →
        detectParameterType raw = ParameterType.string)
  ∧ (jsIncludes (jsToLower raw) (S "string") = false →
      (jsIncludes (jsToLower raw) (S "number") = true ∨
        jsIncludes (jsToLower raw) (S "int") = true ∨
        jsIncludes (jsToLower raw) (S "float") = true) →
        detectParameterType raw = ParameterType.number)
  ∧ (jsIncludes (jsToLower raw) (S "string") = false →
      jsIncludes (jsToLower raw) (S "number") = false →
      jsIncludes (jsToLower raw) (S "int") = false →
      jsIncludes (jsToLower raw) (S "float") = false →
      (jsIncludes (jsToLower raw) (S "boolean") = true ∨
        jsIncludes (jsToLower raw) (S "bool") = true) →
        detectParameterType raw = ParameterType.boolean)
  ∧ (jsIncludes (jsToLower raw) (S "string") = false →
      jsIncludes (jsToLower raw) (S "number") = false →
      jsIncludes (jsToLower raw) (S "int") = false →
      jsIncludes (jsToLower raw) (S "float") = false →
      jsIncludes (jsToLower raw) (S "boolean") = false →
      jsIncludes (jsToLower raw) (S "bool") = false →
      jsIncludes (jsToLower raw) (S "array") = true →
        detectParameterType raw = ParameterType.array)
  ∧ (jsIncludes (jsToLower raw) (S "string") = false →
      jsIncludes (jsToLower raw) (S "number") = false →
      jsIncludes (jsToLower raw) (S "int") = false →
      jsIncludes (jsToLower raw) (S "float") = false →
      jsIncludes (jsToLower raw) (S "boolean") = false →
      jsIncludes (jsToLower raw) (S "bool") = false →
      jsIncludes (jsToLower raw) (S "array") = false →
      jsIncludes (jsToLower raw) (S "object") = true →
        detectParameterType raw = ParameterType.object)
  ∧ (jsIncludes (jsToLower raw) (S "string") = false →
      jsIncludes (jsToLower raw) (S "number") = false →
      jsIncludes (jsToLower raw) (S "int") = false →
      jsIncludes (jsToLower raw) (S "float") = false →
      jsIncludes (jsToLower raw) (S "boolean") = false →
      jsIncludes (jsToLower raw) (S "bool") = false →
      jsIncludes (jsToLower raw) (S "array") = false →
      jsIncludes (jsToLower raw) (S "object") = false →
        detectParameterType raw = ParameterType.unknown)
  ∧ detectParameterType (S "Array<string>") = ParameterType.string := by
  refine ⟨?_, ?_, ?_, ?_, ?_, ?_, by decide⟩
  · intro h1
    simp [detectParameterType, h1]
  · intro h1 h2
    rcases h2 with h | h | h <;> simp [detectParameterType, h1, h]
  · intro h1 h2 h3 h4 h5
    rcases h5 with h | h <;> simp [detectParameterType, h1, h2, h3, h4, h]
  · intro h1 h2 h3 h4 h5 h6 h7
    simp [detectParameterType, h1, h2, h3, h4, h5, h6, h7]
  · intro h1 h2 h3 h4 h5 h6 h7 h8
    simp [detectParameterType, h1, h2, h3, h4, h5, h6, h7, h8]
  · intro h1 h2 h3 h4 h5 h6 h7 h8
    simp [detectParameterType, h1, h2, h3, h4, h5, h6, h7, h8]

/-- Witness for C10 at the concrete type text `number`, which lacks the
higher-priority keyword `string`, exercising the second conjunct. -/
theorem c10_detectParameterType_priority_witness :
    detectParameterType (S "number") = ParameterType.number :=
  (c10_detectParameterType_priority (S "number")).2.1 (by decide) (Or.inl (by decide))

/-! ## C5 -/

/-- The endpoint contribution of one plugin on one file. -/
def pluginEndpoints (fp content : Str) (p : FrameworkPlugin) : List EndpointInfo :=
  match p.extractE fp content with
  | .ok es => es
  | .error _ => []

/-- The warning contribution of one plugin on one file. -/
def pluginWarning (fp content : Str) (p : FrameworkPlugin) : Option Str :=
  match p.extractE fp content with
  | .ok _ => none
  | .error _ => some (warnMsg fp p.pname)

theorem runPlugins_eq (fp content : Str) :
    ∀ ps : List FrameworkPlugin,
      runPlugins fp content ps
        = (ps.flatMap (pluginEndpoints fp content),
           ps.filterMap (pluginWarning fp content)) := by
  intro ps
  induction ps with
  | nil => rfl
  | cons p rest ih =>
    simp only [runPlugins, ih]
    cases hE : p.extractE fp content with
    | ok es => simp [List.flatMap_cons, List.filterMap_cons, pluginEndpoints, pluginWarning, hE]
    | error e => simp [List.flatMap_cons, List.filterMap_cons, pluginEndpoints, pluginWarning, hE]

theorem scanFilesWith_eq (plugins : List FrameworkPlugin) :
    ∀ files : List (Str × Str),
      scanFilesWith plugins files
        = (files.flatMap (fun f =>
             (plugins.filter (fun p => p.applies f.1 f.2)).flatMap (pluginEndpoints f.1 f.2)),
           files.flatMap (fun f =>
             (plugins.filter (fun p => p.applies f.1 f.2)).filterMap (pluginWarning f.1 f.2))) := by
  intro files
  induction files with
  | nil => rfl
  | cons f rest ih =>
    obtain ⟨fp, content⟩ := f
    simp only [scanFilesWith, ih]
    by_cases hm : (plugins.filter (fun p => p.applies fp content)).isEmpty
    · rw [List.isEmpty_iff] at hm
      simp [hm]
    · simp only [hm, if_neg, Bool.false_eq_true, not_false_eq_true, if_false,
        runPlugins_eq]
      simp [List.flatMap_cons]

/-- C5: during a scan, a plugin/file pair whose applicability matched and
whose extraction threw contributes exactly one warning naming that file and
plugin, and nothing else; the scan never aborts (the orchestrator is a total
function, and every other file and plugin contributes exactly as if no throw
had happened); conversely every warning arises from such a caught extraction
error — a file matched by no plugin contributes no warning. -/
theorem c5_warnings_exactly_caught_failures (files : List (Str × Str))
    (plugins : List FrameworkPlugin) (now rootDir : Str) :
    ((scanProjectWith files plugins now rootDir).warnings
      = files.flatMap (fun f =>
          (plugins.filter (fun p => p.applies f.1 f.2)).filterMap (pluginWarning f.1 f.2)))
  ∧ ((scanProjectWith files plugins now rootDir).endpoints
      = files.flatMap (fun f =>
          (plugins.filter (fun p => p.applies f.1 f.2)).flatMap (pluginEndpoints f.1 f.2)))
  ∧ (∀ w ∈ (scanProjectWith files plugins now rootDir).warnings,
      ∃ f ∈ files, ∃ p ∈ plugins, p.applies f.1 f.2 = true ∧
        p.extractE f.1 f.2 = .error () ∧ w = warnMsg f.1 p.pname) := by
  have hw : (scanProjectWith files plugins now rootDir).warnings
      = files.flatMap (fun f =>
          (plugins.filter (fun p => p.applies f.1 f.2)).filterMap (pluginWarning f.1 f.2)) := by
    show (scanFilesWith plugins files).2 = _
    rw [scanFilesWith_eq]
  have he : (scanProjectWith files plugins now rootDir).endpoints
      = files.flatMap (fun f =>
          (plugins.filter (fun p => p.applies f.1 f.2)).flatMap (pluginEndpoints f.1 f.2)) := by
    show (scanFilesWith plugins files).1 = _
    rw [scanFilesWith_eq]
  refine ⟨hw, he, ?_⟩
  intro w hwmem
  rw [hw] at hwmem
  obtain ⟨f, hf, hwin⟩ := List.mem_flatMap.mp hwmem
  obtain ⟨p, hpin, hsome⟩ := List.mem_filterMap.mp hwin
  obtain ⟨hpmem, happ⟩ := List.mem_filter.mp hpin
  refine ⟨f, hf, p, hpmem, happ, ?_⟩
  cases hE : p.extractE f.1 f.2 with
  | ok es => rw [pluginWarning, hE] at hsome; cases hsome
  | error e =>
    cases e
    rw [pluginWarning, hE] at hsome
    exact ⟨rfl, (Option.some_inj.mp hsome).symm⟩

/-- A plugin whose extraction always throws, for the C5 witness. -/
def c5plugin : FrameworkPlugin :=
  { pname := S "boom", applies := fun _ _ => true, extractE := fun _ _ => .error () }

theorem c5_warnings_exactly_caught_failures_witness :
    (scanProjectWith [(S "a.ts", S "x")] [c5plugin] (S "t") (S "r")).warnings
      = [warnMsg (S "a.ts") (S "boom")]
  ∧ ∃ f ∈ [((S "a.ts" : Str), (S "x" : Str))], ∃ p ∈ [c5plugin],
      p.applies f.1 f.2 = true ∧ p.extractE f.1 f.2 = .error () ∧
        warnMsg (S "a.ts") (S "boom") = warnMsg f.1 p.pname := by
  have h := c5_warnings_exactly_caught_failures [(S "a.ts", S "x")] [c5plugin] (S "t") (S "r")
  refine ⟨h.1.trans (by decide), ?_⟩
  exact h.2.2 (warnMsg (S "a.ts") (S "boom")) (by rw [h.1]; decide)

/-! ## C6 -/

theorem expressLoop_method (fuel : Nat) :
    ∀ fp content li st, ∀ e ∈ (expressLoop fuel fp content li st).1,
      HTTP_METHODS.contains e.method = true := by
  induction fuel with
  | zero => intro fp content li st e he; simp [expressLoop] at he
  | succ n ih =>
    intro fp content li st e he
    rw [expressLoop] at he
    split at he
    · simp at he
    · rename_i idx verbpath li2 heq
      dsimp only at he
      rw [apply_ite Prod.fst] at he
      split at he
      · rename_i hg
        rcases List.mem_cons.mp he with rfl | htail
        · simpa using (Bool.and_eq_true _ _ |>.mp hg).1
        · exact ih fp content _ _ e htail
      · exact ih fp content _ _ e he

theorem fastifyLoop_method (fuel : Nat) :
    ∀ fp content li st, ∀ e ∈ (fastifyLoop fuel fp content li st).1,
      HTTP_METHODS.contains e.method = true := by
  induction fuel with
  | zero => intro fp content li st e he; simp [fastifyLoop] at he
  | succ n ih =>
    intro fp content li st e he
    rw [fastifyLoop] at he
    split at he
    · simp at he
    · rename_i idx verbpath li2 heq
      dsimp only at he
      rw [apply_ite Prod.fst] at he
      split at he
      · rename_i hg
        rcases List.mem_cons.mp he with rfl | htail
        · simpa using (Bool.and_eq_true _ _ |>.mp hg).1
        · exact ih fp content _ _ e htail
      · exact ih fp content _ _ e he

theorem nestLoop_method (fuel : Nat) :
    ∀ fp content li st, ∀ e ∈ (nestLoop fuel fp content li st).1,
      HTTP_METHODS.contains e.method = true := by
  induction fuel with
  | zero => intro fp content li st e he; simp [nestLoop] at he
  | succ n ih =>
    intro fp content li st e he
    rw [nestLoop] at he
    split at he
    · simp at he
    · rename_i idx verbpath li2 heq
      dsimp only at he
      rw [apply_ite Prod.fst] at he
      split at he
      · rename_i hg
        rcases List.mem_cons.mp he with rfl | htail
        · simpa using hg
        · exact ih fp content _ _ e htail
      · exact ih fp content _ _ e he

/-- C6: every EndpointDescriptor emitted by any of the three built-in
matchers, on any input file and from any regex state, has a method drawn
from the enumerated `HTTP_METHODS` (never a null or placeholder value); and
a fluent-style declaration using a verb outside the set — here a PATCH
call — produces no descriptor at all. -/
theorem c6_method_always_enumerated :
    (∀ fp content st, ∀ e ∈ (extractExpressRoutes fp content st).1,
        HTTP_METHODS.contains e.method = true)
  ∧ (∀ fp content st, ∀ e ∈ (extractFastifyRoutes fp content st).1,
        HTTP_METHODS.contains e.method = true)
  ∧ (∀ fp content st, ∀ e ∈ (extractNestRoutes fp content st).1,
        HTTP_METHODS.contains e.method = true)
  ∧ (extractExpressRoutes (S "app.js")
        (S "const app = express(); app.patch(\"/items\", handler)") initRegexState).1 = [] := by
  refine ⟨?_, ?_, ?_, by decide⟩
  · intro fp content st e he
    exact expressLoop_method (content.length + 2) fp content st.route st e he
  · intro fp content st e he
    exact fastifyLoop_method (content.length + 2) fp content st.fastify st e he
  · intro fp content st e he
    exact nestLoop_method (content.length + 2) fp content st.nest st e he

/-- A concrete endpoint the nest matcher emits, for the C6 witness. -/
def c6wEndpoint : EndpointInfo :=
  { method := S "GET", path := S "/a", description := none, parameters := [],
    requestBodySchema := none, response := none, framework := S "nestjs",
    sourceFile := S "c.ts", line := none }

theorem c6_method_always_enumerated_witness :
    HTTP_METHODS.contains c6wEndpoint.method = true :=
  c6_method_always_enumerated.2.2.1 (S "c.ts") (S "@Controller\n@Get(\"/a\")\nx")
    initRegexState c6wEndpoint (by decide)

/-! ## C7 -/

/-- A declarative-style file containing one route declaration and no
documentation block anywhere. -/
def c7content : Str := S "@Controller\nclass X \x7b\n@Get(\"/a\")\nf()\n\x7d\n"

/-- The descriptor the scan emits for `c7content`: description absent,
parameters empty, requestBodySchema null, response null. -/
def c7endpoint : EndpointInfo :=
  { method := S "GET", path := S "/a", description := none, parameters := [],
    requestBodySchema := none, response := none, framework := S "nestjs",
    sourceFile := S "c.ts", line := none }

/-- C7: every emitted EndpointDescriptor — and every endpoint object of a
persisted snapshot — serializes with `requestBodySchema` and `response`
present as keys (explicit null when absent, never omitted); and a route
declaration with zero documentation blocks anywhere before it yields a
descriptor with description absent, parameters empty, requestBodySchema null
and response null. -/
theorem c7_null_fields_always_present :
    (∀ e : EndpointInfo,
        Json.hasKey (endpointJson e) (S "requestBodySchema") = true
      ∧ Json.hasKey (endpointJson e) (S "response") = true)
  ∧ (∀ (data : ScanResult) (options : OutputWriteOptions) (prior : Option ScanResult),
        ∀ j ∈ ((writeOutputJson data options prior).1).endpoints.map endpointJson,
          Json.hasKey j (S "requestBodySchema") = true
        ∧ Json.hasKey j (S "response") = true)
  ∧ (scanBackendProject [(S "c.ts", c7content)] (S "t") (S "r") initRegexState).1.endpoints
      = [c7endpoint] := by
  have hall : ∀ e : EndpointInfo,
      Json.hasKey (endpointJson e) (S "requestBodySchema") = true
    ∧ Json.hasKey (endpointJson e) (S "response") = true := by
    intro e
    obtain ⟨m, p, d, par, rb, re, fw, sf, ln⟩ := e
    cases d <;> cases ln <;> exact ⟨rfl, rfl⟩
  refine ⟨hall, ?_, by decide⟩
  intro data options prior j hj
  obtain ⟨e, _, rfl⟩ := List.mem_map.mp hj
  exact hall e

theorem c7_null_fields_always_present_witness :
    Json.hasKey (endpointJson c7endpoint) (S "requestBodySchema") = true
  ∧ Json.hasKey (endpointJson c7endpoint) (S "response") = true :=
  c7_null_fields_always_present.2.1
    { scannedAt := S "t", rootDir := S "r", endpoints := [c7endpoint], warnings := [] }
    { rootDir := S "r", incremental := false } none
    (endpointJson c7endpoint) (by decide)

/-! ## C1 -/

/-- The spec section 8 fluent-style minimal file, together with the express
matcher's applicability marker token (`Router`). -/
def c1content : Str :=
  S "const r = Router();\n/** List users\n * @param \x7bstring\x7d status\n * @responseExample 200 \x7b\"users\":[]\x7d\n */\nget(\"/users\", handler)\n"

/-- C1 (violated by the code): on the minimal fluent-style file the express
plugin's applicability test succeeds, yet the scan yields NO descriptor
instead of the single documented one.  `match` runs
`ROUTE_METHOD_REGEX.test(content)` on the module-level `g` regex, advancing
its shared `lastIndex` past the only declaration, so the subsequent
`extract` finds nothing; a fresh `lastIndex` would have found the route
(third conjunct). -/
theorem c1_express_minimal_file_yields_nothing :
    (expressMatch c1content initRegexState).1 = true
  ∧ (scanBackendProject [(S "routes.js", c1content)] (S "t") (S "r") initRegexState).1.endpoints
      = []
  ∧ (extractExpressRoutes (S "routes.js") c1content initRegexState).1.map
      (fun e => (e.method, e.path)) = [(S "GET", S "/users")] := by
  refine ⟨by decide, by decide, by decide⟩

/-! ## C2 -/

/-- A one-file tree whose doc block carries a response example. -/
def c2content : Str :=
  S "@Controller\n/** @responseExample 200 hello */\n@Get(\"/a\")\n"

def c2scan1 : ScanResult × RegexState :=
  scanBackendProject [(S "users.ts", c2content)] (S "t1") (S "r") initRegexState

/-- The second scan of the identical tree, started from the module-level
regex state the first scan left behind (same timestamp input, so any
difference is real). -/
def c2scan2 : ScanResult × RegexState :=
  scanBackendProject [(S "users.ts", c2content)] (S "t1") (S "r") c2scan1.2

/-- C2 (violated by the code): scanning the unchanged tree twice in
succession yields different `endpoints`: the first scan reports the
response example, the second reports response null, because
`RESPONSE_EXAMPLE_REGEX`'s `lastIndex` survives the first scan and makes the
single `exec` miss the annotation.  `warnings` agree (both empty). -/
theorem c2_second_scan_differs :
    ¬ (c2scan1.1.endpoints = c2scan2.1.endpoints)
  ∧ c2scan1.1.warnings = c2scan2.1.warnings
  ∧ c2scan1.1.endpoints.map (fun e => e.response)
      = [some { status := 200, exampleV := Json.str (S "hello") }]
  ∧ c2scan2.1.endpoints.map (fun e => e.response) = [none] := by
  refine ⟨by decide, by decide, by decide, by decide⟩

/-! ## C8 -/

/-- Applicable declarative-style file whose decorator carries no path
argument at all. -/
def c8contentNoArg : Str := S "@Controller\n@Get()\nhandler\n"

/-- Applicable declarative-style file whose decorator carries an empty
quoted path argument. -/
def c8contentEmptyQuoted : Str := S "@Controller\n@Get(\"\")\nhandler\n"

/-- C8 counterexample: on a file where the nest matcher applies, a decorator
whose path argument is absent produces NO EndpointDescriptor at all — the
pattern `@(Get|...)\s*\(\s*[`"']...` demands an opening quote — so in
particular none with path "/". -/
theorem c8_absent_arg_counterexample :
    nestMatch (S "a.ts") c8contentNoArg = true
  ∧ (extractNestRoutes (S "a.ts") c8contentNoArg initRegexState).1 = [] := by
  refine ⟨by decide, by decide⟩

/-- C8 (amended): it is the decorator with an EMPTY QUOTED path argument
that defaults to the root path "/"; a decorator with no argument at all
produces no descriptor. -/
theorem c8_empty_quoted_path_defaults_root :
    nestMatch (S "a.ts") c8contentEmptyQuoted = true
  ∧ (extractNestRoutes (S "a.ts") c8contentEmptyQuoted initRegexState).1.map
      (fun e => (e.method, e.path)) = [(S "GET", S "/")] := by
  refine ⟨by decide, by decide⟩

/-! ## C9 -/

/-- First documentation block: a malformed (non-JSON) request body whose
annotation sits late in the block. -/
def c9block1 : Str := S "/** @requestBody \x7bbad */"

/-- Second documentation block: shorter, also with a malformed request
body. -/
def c9block2 : Str := S "/** @requestBody nope */"

/-- A block whose response example body is not parseable as JSON. -/
def c9blockResp : Str := S "/** @responseExample 200 nope */"

/-- C9 (violated by the code): from a fresh state the malformed request body
is wrapped as `{schema: raw}` and the malformed response example degrades to
its raw text, as claimed (and the parser is a total function — it cannot
throw); but `REQUEST_SCHEMA_REGEX`'s `lastIndex` survives the first call, and
on the very next block the single `exec` misses the annotation entirely:
`requestBodySchema` comes back null — the malformed schema IS silently
dropped.  The fourth conjunct certifies the bodies really fail JSON
parsing. -/
theorem c9_request_body_dropped_by_stale_state :
    (parseDocBlockSt (some c9block1) initRegexState).1.requestBodySchema
        = some (Json.obj (.cons (S "schema") (Json.str (S "\x7bbad")) .nil))
  ∧ (parseDocBlockSt (some c9block2)
        (parseDocBlockSt (some c9block1) initRegexState).2).1.requestBodySchema
        = none
  ∧ (parseDocBlockSt (some c9blockResp) initRegexState).1.response
        = some { status := 200, exampleV := Json.str (S "nope") }
  ∧ jsonParse (S "\x7bbad") = none ∧ jsonParse (S "nope") = none := by
  refine ⟨by decide, by decide, by decide, by decide, by decide⟩

end Zeus
